import Mathlib

/-!
Verification development for the NeMo-Skills swe-bench dataset scripts:
the streaming merge-by-key engine of
`nemo_skills/dataset/swe-bench/create_artsiv_w_findings.py`
(`build_lookup_streaming`, `merge_files`) and the location-extraction
transform of `nemo_skills/dataset/swe-bench/prepare_with_locations.py`
(`extract_locations_from_problem_statement`, `process_jsonl_file`).

JSON-compatible values are embedded as the mutual inductive `JVal`;
a parsed JSON object (a Python dict as produced by `orjson.loads` /
`json.loads`) is an insertion-ordered association list `Rec` with
unique keys.  An input file is a list of `Line`s: each physical line is
blank, fails to parse as JSON, or parses to a record — the classification
the Python code performs with `line.strip()` and `loads`.
-/

mutual
/-- A JSON-compatible Python value: `None`, `bool`, number, `str`,
`list`, or `dict` (insertion ordered). -/
inductive JVal where
  | null
  | bool (b : Bool)
  | num (n : Int)
  | str (s : String)
  | arr (xs : JArr)
  | obj (fields : JObj)
deriving DecidableEq

/-- Elements of a JSON array. -/
inductive JArr where
  | nil
  | cons (hd : JVal) (tl : JArr)
deriving DecidableEq

/-- Fields of a nested JSON object, in insertion order. -/
inductive JObj where
  | nil
  | cons (key : String) (val : JVal) (tl : JObj)
deriving DecidableEq
end

/-- Build a JSON array from a Lean list of values. -/
def JArr.ofList : List JVal → JArr
  | [] => .nil
  | v :: vs => .cons v (JArr.ofList vs)

/-- Python truthiness (`bool(v)`) of a JSON-compatible value:
`None`, `False`, `0`, `""`, `[]`, `{}` are falsy; everything else truthy. -/
def JVal.truthy : JVal → Bool
  | .null => false
  | .bool b => b
  | .num n => n != 0
  | .str s => !s.isEmpty
  | .arr .nil => false
  | .arr (.cons _ _) => true
  | .obj .nil => false
  | .obj (.cons _ _ _) => true

/-- `v is None` in Python: the value is JSON null. -/
def JVal.isNull : JVal → Bool
  | .null => true
  | _ => false

/-- A top-level parsed JSON object (Python dict): insertion-ordered
association list from field name to value.  The scripts treat records
opaquely except for a handful of fields. -/
abbrev Rec := List (String × JVal)

/-- `rec.get(k)`: value of field `k`, or `none` when the field is absent.
Dicts have unique keys, so the first match is the only match. -/
def getField : Rec → String → Option JVal
  | [], _ => none
  | (k', v') :: rest, k => if k' = k then some v' else getField rest k

/-- `rec.get(k)` where a missing field and an explicit JSON null are both
Python `None` (as in `rec.get("locations")`). -/
def getOrNull (r : Rec) (k : String) : JVal :=
  (getField r k).getD .null

/-- `rec[k] = v`: dict assignment.  An existing key keeps its position and
gets the new value; a new key is appended at the end (insertion order). -/
def setField : Rec → String → JVal → Rec
  | [], k, v => [(k, v)]
  | (k', v') :: rest, k, v =>
    if k' = k then (k', v) :: rest else (k', v') :: setField rest k v

/-- `rec.pop(k, None)`: remove field `k` when present. -/
def popField : Rec → String → Rec
  | [], _ => []
  | (k', v') :: rest, k =>
    if k' = k then popField rest k else (k', v') :: popField rest k

/-- One physical line of a line-delimited JSON source, classified the way
the Python code classifies it: whitespace-only (`not line.strip()`),
failing to parse as JSON (`loads` raises), or parsing to a record. -/
inductive Line where
  | blank
  | malformed
  | record (r : Rec)
deriving DecidableEq

section SanityExamples

example : getField [("a", .num 1), ("b", .null)] "b" = some .null := by decide

example : setField [("a", .num 1)] "a" (.num 2) = [("a", .num 2)] := by decide

example : setField [("a", .num 1)] "b" (.num 2) = [("a", .num 1), ("b", .num 2)] := by
  decide

example : popField [("a", .num 1), ("b", .null)] "b" = [("a", .num 1)] := by decide

end SanityExamples

/-! ## Lookup Builder (`build_lookup_streaming`, lines 18–59)

`lookup[iid] = {"locations": rec.get("locations"), "findings": rec.get("findings")}`
for every parsed secondary record with a truthy `instance_id`.  The
mapping is a Python dict keyed by the (arbitrary JSON) value of
`instance_id`; an assignment to an existing key replaces the value in
place, a new key is appended. -/

/-- The per-key projection kept by the Lookup Builder: the secondary
record's `locations` and `findings` values (`rec.get` yields `None`,
i.e. JSON null, when the field is absent). -/
structure Entry where
  locations : JVal
  findings : JVal
deriving DecidableEq

/-- The key→Entry mapping built from the secondary source, in insertion
order (a Python dict). -/
abbrev Lookup := List (JVal × Entry)

/-- `lookup.get(iid)`: the entry stored under key `iid`, if any. -/
def lookupGet : Lookup → JVal → Option Entry
  | [], _ => none
  | (k', e') :: rest, k => if k' = k then some e' else lookupGet rest k

/-- `lookup[iid] = entry`: dict assignment — replace the value of an
existing key in place, else append the new key at the end. -/
def lookupSet : Lookup → JVal → Entry → Lookup
  | [], k, e => [(k, e)]
  | (k', e') :: rest, k, e =>
    if k' = k then (k', e) :: rest else (k', e') :: lookupSet rest k e

/-- The projection stored for a secondary record (lines 53–56). -/
def entryOf (r : Rec) : Entry :=
  { locations := getOrNull r "locations", findings := getOrNull r "findings" }

/-- One iteration of the Lookup Builder's loop (lines 33–56): blank lines
are skipped, parse failures are warned about and skipped, records with a
falsy `instance_id` are skipped silently, and everything else is stored
under its key (overwriting any prior entry). -/
def buildStep (lk : Lookup) : Line → Lookup
  | .blank => lk
  | .malformed => lk
  | .record r =>
    let iid := getOrNull r "instance_id"
    if iid.truthy then lookupSet lk iid (entryOf r) else lk

/-- `build_lookup_streaming` (lines 18–59): a single streaming pass over
the secondary source, folding `buildStep` over its lines. -/
def build_lookup_streaming (lines : List Line) : Lookup :=
  lines.foldl buildStep []

/-- The returned mapping has pairwise-distinct keys: no key stored at one
position occurs again later. -/
def keysNodup : Lookup → Bool
  | [] => true
  | (k, _) :: rest => (lookupGet rest k).isNone && keysNodup rest

/-! ## Streaming Join-and-Project Engine (`merge_files`, lines 62–117) -/

/-- The observable state of the join pass: the two output sinks (lists of
records already written, in order) and the three reporting counters
(lines 73–74, 95, 98, 110). -/
structure MergeState where
  out_full : List Rec
  out_loc : List Rec
  merged_count : Nat
  found_locs : Nat
  found_findings : Nat
deriving DecidableEq

/-- The state before any primary line is consumed. -/
def initState : MergeState :=
  { out_full := [], out_loc := [], merged_count := 0,
    found_locs := 0, found_findings := 0 }

/-- Field-overwrite step (lines 92–98): `locations` and `findings` are
each overwritten from the entry exactly when the entry's value
`is not None`; the two Booleans report which counters were bumped. -/
def applyExtra (e : Entry) (r : Rec) : Rec × Bool × Bool :=
  let rl := if e.locations.isNull then r else setField r "locations" e.locations
  let rf := if e.findings.isNull then rl else setField rl "findings" e.findings
  (rf, !e.locations.isNull, !e.findings.isNull)

/-- Merge one primary record against the lookup (lines 91–98).  `extra` is
a two-field dict whenever the key is found, hence always truthy, so
`if extra:` reduces to the key being present. -/
def mergeRecord (lk : Lookup) (iid : JVal) (r : Rec) : Rec × Bool × Bool :=
  match lookupGet lk iid with
  | some e => applyExtra e r
  | none => (r, false, false)

/-- Process one primary line (lines 82–111).  Blank lines are skipped;
a line that fails `orjson.loads` raises, aborting the pass with the
sinks and counters as already written (`.error`); a record with a falsy
`instance_id` is dropped silently; otherwise the merged record goes to
the full sink, its `findings`-free copy goes to the locations-only sink,
and the counters are updated. -/
def mergeLine (lk : Lookup) (st : MergeState) : Line → Except MergeState MergeState
  | .blank => .ok st
  | .malformed => .error st
  | .record r =>
    let iid := getOrNull r "instance_id"
    if iid.truthy then
      let res := mergeRecord lk iid r
      .ok { out_full := st.out_full ++ [res.1],
            out_loc := st.out_loc ++ [popField res.1 "findings"],
            merged_count := st.merged_count + 1,
            found_locs := st.found_locs + (if res.2.1 then 1 else 0),
            found_findings := st.found_findings + (if res.2.2 then 1 else 0) }
    else .ok st

/-- The primary loop of `merge_files`: thread the state through the lines,
stopping at the first fatal parse error with the state reached so far. -/
def mergeLines (lk : Lookup) (st : MergeState) : List Line → Except MergeState MergeState
  | [] => .ok st
  | l :: rest =>
    match mergeLine lk st l with
    | .ok st' => mergeLines lk st' rest
    | .error st' => .error st'

/-- The join pass of `merge_files` for a given lookup mapping: stream the
primary source once from the initial state. -/
def merge_with_lookup (lk : Lookup) (lines : List Line) : Except MergeState MergeState :=
  mergeLines lk initState lines

/-- `merge_files` (lines 62–117): build the lookup from the secondary
source, then run the join pass over the primary source. -/
def merge_files (secondary primary : List Line) : Except MergeState MergeState :=
  merge_with_lookup (build_lookup_streaming secondary) primary

/-- The state observable after the pass, whether it completed or raised:
on a raise the sinks hold exactly what was written before the bad line. -/
def finalState : Except MergeState MergeState → MergeState
  | .ok st => st
  | .error st => st

/-! ## Location extraction (`prepare_with_locations.py`, lines 15–57)

`extract_locations_from_problem_statement` runs
`re.search(r'--- EDIT LOCATIONS ---\s*\n(.*?)(?:\n\n|\Z)', s, re.DOTALL)`,
takes `s[:match.start()].rstrip()` as the cleaned text, splits group 1 on
newlines and matches each stripped line against
`r'[bullet]\s*([^\n:]+)(?::\s*L(\d+)-L(\d+))?'`.  The regexes are embedded
below at character level, with Python's leftmost-match and
greedy-with-backtracking semantics made explicit. -/

/-- Python `\s` on the ASCII range (also the set stripped by `str.strip`). -/
def isPySpace (c : Char) : Bool :=
  c == ' ' || c == '\t' || c == '\n' || c == '\r' || c == '\x0b' || c == '\x0c'

/-- The literal part of the section regex. -/
def markerChars : List Char := "--- EDIT LOCATIONS ---".data

/-- Does `pat` occur at the very start of `s`? -/
def beginsWith : List Char → List Char → Bool
  | [], _ => true
  | _ :: _, [] => false
  | p :: ps, c :: cs => p == c && beginsWith ps cs

/-- Index of the last newline in a list, if any (the greedy `\s*` followed
by `\n` consumes a maximal whitespace run up to and including its last
newline, found by backtracking). -/
def lastNl : List Char → Option Nat
  | [] => none
  | c :: rest =>
    match lastNl rest with
    | some i => some (i + 1)
    | none => if c = '\n' then some 0 else none

/-- The lazy `(.*?)(?:\n\n|\Z)` under `re.DOTALL`: everything up to the
first blank line (`"\n\n"`), or to the end of the text. -/
def takeUntilBlank : List Char → List Char
  | [] => []
  | '\n' :: '\n' :: _ => []
  | c :: rest => c :: takeUntilBlank rest

/-- Attempt the section regex at the start of `cs`: the marker literal,
then `\s*\n` (a whitespace run containing a newline, consumed through its
last newline), then the lazy body.  Returns group 1 on success. -/
def tryMatchAt (cs : List Char) : Option (List Char) :=
  if beginsWith markerChars cs then
    let rest := cs.drop markerChars.length
    let run := rest.takeWhile isPySpace
    match lastNl run with
    | none => none
    | some i => some (takeUntilBlank (rest.drop (i + 1)))
  else none

/-- `re.search` for the section pattern: try every start position left to
right, returning the match position and group 1 of the leftmost match. -/
def findMarker : List Char → Nat → Option (Nat × List Char)
  | [], _ => none
  | c :: rest, idx =>
    match tryMatchAt (c :: rest) with
    | some g => some (idx, g)
    | none => findMarker rest (idx + 1)

/-- `locations_text.split('\n')`. -/
def splitNl : List Char → List (List Char)
  | [] => [[]]
  | '\n' :: rest => [] :: splitNl rest
  | c :: rest =>
    match splitNl rest with
    | l :: ls => (c :: l) :: ls
    | [] => [[c]]

/-- `str.strip()` on a character list. -/
def stripChars (l : List Char) : List Char :=
  ((l.dropWhile isPySpace).reverse.dropWhile isPySpace).reverse

/-- `str.rstrip()` on a character list. -/
def rstripChars (l : List Char) : List Char :=
  (l.reverse.dropWhile isPySpace).reverse

/-- Value of a nonempty decimal digit string (`int(...)` on a `\d+` group). -/
def digitsToNat (ds : List Char) : Nat :=
  ds.foldl (fun a c => a * 10 + (c.toNat - 48)) 0

/-- Greedy `(\d+)`: a nonempty maximal digit run and the remainder. -/
def parseDigits (cs : List Char) : Option (Nat × List Char) :=
  let ds := cs.takeWhile Char.isDigit
  if ds.isEmpty then none else some (digitsToNat ds, cs.drop ds.length)

/-- The optional `(?::\s*L(\d+)-L(\d+))?` group: a colon, whitespace, then
`L<start>-L<end>`.  (`L` is not whitespace, so the greedy `\s*` never has
to backtrack here.) -/
def tryLineNums (u : List Char) : Option (Nat × Nat) :=
  match u with
  | ':' :: u1 =>
    match u1.dropWhile isPySpace with
    | 'L' :: u3 =>
      match parseDigits u3 with
      | some (n1, '-' :: 'L' :: u4) =>
        match parseDigits u4 with
        | some (n2, _) => some (n1, n2)
        | none => none
      | _ => none
    | _ => none
  | _ => none

/-- A character matched by `[^\n:]`. -/
def notColonNl (c : Char) : Bool := c != ':' && c != '\n'

/-- `\s*([^\n:]+)...` after the bullet, with the greedy `\s*` backtracking
from `k` whitespace characters downward until the `[^\n:]+` group is
nonempty.  Returns group 1 (the raw file path) and the optional line-number
groups. -/
def tryAfterBulletK (cs : List Char) : Nat → Option (List Char × Option (Nat × Nat))
  | 0 =>
    let m := cs.takeWhile notColonNl
    if m.isEmpty then none else some (m, tryLineNums (cs.drop m.length))
  | k + 1 =>
    let t := cs.drop (k + 1)
    let m := t.takeWhile notColonNl
    if m.isEmpty then tryAfterBulletK cs k
    else some (m, tryLineNums (t.drop m.length))

/-- Match the tail of the location pattern right after a bullet character,
starting `\s*` from its maximal run. -/
def tryAfterBullet (cs : List Char) : Option (List Char × Option (Nat × Nat)) :=
  tryAfterBulletK cs (cs.takeWhile isPySpace).length

/-- `re.search` for the location pattern within one line: scan for a
bullet (`U+2022`), try the rest of the pattern there, and on failure keep
scanning to the right. -/
def findBullet : List Char → Option (List Char × Option (Nat × Nat))
  | [] => none
  | c :: rest =>
    if c = '•' then
      match tryAfterBullet rest with
      | some res => some res
      | none => findBullet rest
    else findBullet rest

/-- One `{file_path, start_line, end_line}` triple (lines 51–55). -/
structure Loc where
  file_path : String
  start_line : Option Nat
  end_line : Option Nat
deriving DecidableEq

/-- Parse one (already stripped, nonempty) line of the section body: on a
match, `file_path` is group 1 stripped, and the line numbers are present
exactly when the optional group matched (lines 45–55). -/
def parseLocLine (line : List Char) : Option Loc :=
  match findBullet line with
  | none => none
  | some (g1, nums) =>
    some { file_path := String.mk (stripChars g1),
           start_line := nums.map (fun p => p.1),
           end_line := nums.map (fun p => p.2) }

/-- Lines 39–55: split the section body on newlines, skip blank lines,
keep every line the location pattern matches, in order. -/
def extractLocs (body : List Char) : List Loc :=
  (splitNl body).filterMap (fun l =>
    let l' := stripChars l
    if l'.isEmpty then none else parseLocLine l')

/-- `extract_locations_from_problem_statement` (lines 15–57): find the
marker section; without one, return the text unchanged and no locations;
with one, the cleaned text is everything before the match, right-stripped,
and the locations come from the section body (group 1). -/
def extract_locations_from_problem_statement (s : String) : String × List Loc :=
  match findMarker s.data 0 with
  | none => (s, [])
  | some (start, body) =>
    (String.mk (rstripChars (s.data.take start)), extractLocs body)

section ExtractionExamples

example :
    extract_locations_from_problem_statement
        "Fix the bug.\n\n--- EDIT LOCATIONS ---\n• a.py: L1-L5\n• b.py"
      = ("Fix the bug.",
         [{ file_path := "a.py", start_line := some 1, end_line := some 5 },
          { file_path := "b.py", start_line := none, end_line := none }]) := by
  decide

example : extract_locations_from_problem_statement "Fix the bug." = ("Fix the bug.", []) := by
  decide

example :
    (extract_locations_from_problem_statement "A\n--- EDIT LOCATIONS ---\n• a.py\n\nB").1
      = "A" := by
  decide

example :
    extract_locations_from_problem_statement "--- EDIT LOCATIONS ---\n\n• x.py\nrest"
      = ("", [{ file_path := "x.py", start_line := none, end_line := none }]) := by
  decide

example :
    extract_locations_from_problem_statement "--- EDIT LOCATIONS --- no newline here"
      = ("--- EDIT LOCATIONS --- no newline here", []) := by
  decide

example :
    extract_locations_from_problem_statement "pre --- EDIT LOCATIONS ---   \t\n• q.py"
      = ("pre", [{ file_path := "q.py", start_line := none, end_line := none }]) := by
  decide

example :
    extract_locations_from_problem_statement
        "--- EDIT LOCATIONS ---x\n--- EDIT LOCATIONS ---\n• z.py"
      = ("--- EDIT LOCATIONS ---x",
         [{ file_path := "z.py", start_line := none, end_line := none }]) := by
  decide

example : parseLocLine "•   : L1-L2".data
    = some { file_path := "", start_line := some 1, end_line := some 2 } := by decide

example : parseLocLine "• a.py: 10-20".data
    = some { file_path := "a.py", start_line := none, end_line := none } := by decide

example : parseLocLine "• x.py: L7-L8 trailing".data
    = some { file_path := "x.py", start_line := some 7, end_line := some 8 } := by decide

example : parseLocLine "junk • c.py: L2-L9".data
    = some { file_path := "c.py", start_line := some 2, end_line := some 9 } := by decide

example : parseLocLine "•:::".data = none := by decide

end ExtractionExamples

/-! ## In-place companion transform (`process_jsonl_file`, lines 60–119)

The transform reads every line of a JSONL file, skips blank lines, warns
about and skips lines that fail `json.loads`, rewrites each remaining
sample, and finally overwrites the file with exactly the rewritten
samples.  A sample whose `problem_statement` is present but not a string
makes `re.search` raise `TypeError`, which is not caught
(only `json.JSONDecodeError` is): the pass aborts, modelled as `none`. -/

/-- `sample.get('problem_statement', '')` followed by its use as `re`
input: absent means the empty string, a string is used as is, and any
other value raises (`none`). -/
def psField (sample : Rec) : Option String :=
  match getField sample "problem_statement" with
  | none => some ""
  | some (.str s) => some s
  | some _ => none

/-- `None` versus a number, for the optional line-number slots of a
location dict. -/
def optNatToJVal : Option Nat → JVal
  | none => .null
  | some n => .num n

/-- The `{"file_path": ..., "start_line": ..., "end_line": ...}` dict a
location is serialized to (lines 51–55). -/
def locToJVal (l : Loc) : JVal :=
  .obj (.cons "file_path" (.str l.file_path)
    (.cons "start_line" (optNatToJVal l.start_line)
      (.cons "end_line" (optNatToJVal l.end_line) .nil)))

/-- The `{"reasoning": ..., "locations": [...]}` structure stored under
`edit_locations` when extraction found locations (lines 96–99). -/
def editLocationsVal (reasoning : String) (locs : List Loc) : JVal :=
  .obj (.cons "reasoning" (.str reasoning)
    (.cons "locations" (.arr (JArr.ofList (locs.map locToJVal))) .nil))

/-- Rewrite one sample (lines 87–102): extract locations from
`problem_statement`, store the cleaned text back, then either install the
`edit_locations` structure (when locations were found) or delete any
pre-existing `edit_locations` field (when none were). -/
def processSample (reasoning : String) (sample : Rec) : Option Rec :=
  match psField sample with
  | none => none
  | some ps =>
    let res := extract_locations_from_problem_statement ps
    let s1 := setField sample "problem_statement" (.str res.1)
    some (if !res.2.isEmpty then
            setField s1 "edit_locations" (editLocationsVal reasoning res.2)
          else if (getField s1 "edit_locations").isSome then
            popField s1 "edit_locations"
          else s1)

/-- `process_jsonl_file` (lines 60–119): the rewritten samples, in input
order — blank lines skipped, unparseable lines warned about and skipped,
every parsed sample rewritten.  An uncaught error while rewriting any
sample aborts before anything is written (`none`). -/
def process_jsonl_file (reasoning : String) : List Line → Option (List Rec)
  | [] => some []
  | .blank :: rest => process_jsonl_file reasoning rest
  | .malformed :: rest => process_jsonl_file reasoning rest
  | .record r :: rest =>
    match processSample reasoning r with
    | none => none
    | some r' => (process_jsonl_file reasoning rest).map (fun out => r' :: out)

/-- The record carried by a parsed line, if any. -/
def lineRecord : Line → Option Rec
  | .record r => some r
  | _ => none

/-- Reference behaviour the companion transform is checked against: every
parsed sample rewritten by `processSample`, in sequence, failing when any
rewrite fails.  Composed with `List.filterMap lineRecord` it spells out
"keep exactly the lines that parse, in input order". -/
def processedSeqSpec (reasoning : String) : List Rec → Option (List Rec)
  | [] => some []
  | r :: rs =>
    match processSample reasoning r with
    | none => none
    | some r' => (processedSeqSpec reasoning rs).map (fun out => r' :: out)

section CompanionExamples

example :
    process_jsonl_file "why"
        [.blank,
         .record [("problem_statement", .str "hello")],
         .malformed,
         .record [("problem_statement", .str "x\n--- EDIT LOCATIONS ---\n• a.py: L1-L5"),
                  ("other", .num 7)]]
      = some
        [[("problem_statement", .str "hello")],
         [("problem_statement", .str "x"), ("other", .num 7),
          ("edit_locations",
            .obj (.cons "reasoning" (.str "why")
              (.cons "locations"
                (.arr (.cons
                  (.obj (.cons "file_path" (.str "a.py")
                    (.cons "start_line" (.num 1) (.cons "end_line" (.num 5) .nil))))
                  .nil)) .nil)))]] := by
  decide

example :
    process_jsonl_file "why"
        [.record [("problem_statement", .str "plain"), ("edit_locations", .null)]]
      = some [[("problem_statement", .str "plain")]] := by
  decide

example :
    process_jsonl_file "why" [.record [("problem_statement", .num 3)]] = none := by
  decide

end CompanionExamples

/-! ## Specification-side reference definitions

These follow the spec's words, to be compared with the embedded code. -/

/-- Spec-side accumulator for "the last occurrence observed during the
streaming pass wins": scanning the secondary source in order, remember
the projection of the most recent record whose (truthy) key equals `k`. -/
def specStep (k : JVal) (acc : Option Entry) : Line → Option Entry
  | .record r =>
    let iid := getOrNull r "instance_id"
    if iid.truthy then (if iid = k then some (entryOf r) else acc) else acc
  | _ => acc

/-- Spec-side value of the lookup mapping at key `k`: the projection of
the last record in source order carrying that key, if any. -/
def lastEntrySpec (lines : List Line) (k : JVal) : Option Entry :=
  lines.foldl (specStep k) none

/-- Spec-side order guarantee: the with-findings records the join engine
should emit, one per primary record with a truthy key, in the primary
source's original line order. -/
def orderedEmits (lk : Lookup) (lines : List Line) : List Rec :=
  lines.filterMap (fun l =>
    match l with
    | .record r =>
      let iid := getOrNull r "instance_id"
      if iid.truthy then some (mergeRecord lk iid r).1 else none
    | _ => none)

/-! ## Field-access lemmas -/

theorem getField_setField_self (r : Rec) (k : String) (v : JVal) :
    getField (setField r k v) k = some v := by
  induction r with
  | nil => simp [setField, getField]
  | cons p rest ih =>
    obtain ⟨k', v'⟩ := p
    by_cases h : k' = k <;> simp [setField, getField, h, ih]

theorem getField_setField_ne (r : Rec) (k k2 : String) (v : JVal) (h : k ≠ k2) :
    getField (setField r k v) k2 = getField r k2 := by
  induction r with
  | nil => simp [setField, getField, h]
  | cons p rest ih =>
    obtain ⟨k', v'⟩ := p
    by_cases h1 : k' = k
    · subst h1
      simp [setField, getField, h]
    · simp [setField, getField, h1, ih]

theorem getField_popField_self (r : Rec) (k : String) :
    getField (popField r k) k = none := by
  induction r with
  | nil => simp [popField, getField]
  | cons p rest ih =>
    obtain ⟨k', v'⟩ := p
    by_cases h : k' = k <;> simp [popField, getField, h, ih]

/-! ## Lookup lemmas -/

theorem lookupGet_lookupSet (lk : Lookup) (k k2 : JVal) (e : Entry) :
    lookupGet (lookupSet lk k e) k2 = if k = k2 then some e else lookupGet lk k2 := by
  induction lk with
  | nil => simp [lookupSet, lookupGet]
  | cons p rest ih =>
    obtain ⟨k', e'⟩ := p
    by_cases h1 : k' = k
    · subst h1
      by_cases h2 : k' = k2 <;> simp [lookupSet, lookupGet, h2]
    · by_cases h2 : k = k2
      · subst h2
        simp [lookupSet, lookupGet, h1, ih]
      · simp [lookupSet, lookupGet, h1, h2, ih]

theorem keysNodup_lookupSet (lk : Lookup) (k : JVal) (e : Entry)
    (h : keysNodup lk = true) : keysNodup (lookupSet lk k e) = true := by
  induction lk with
  | nil => simp [lookupSet, keysNodup, lookupGet]
  | cons p rest ih =>
    obtain ⟨k', e'⟩ := p
    simp only [keysNodup, Bool.and_eq_true] at h
    obtain ⟨h1, h2⟩ := h
    by_cases hk : k' = k
    · subst hk
      simp [lookupSet, keysNodup, h1, h2]
    · have hk' : k ≠ k' := fun hkk => hk hkk.symm
      simp [lookupSet, hk, keysNodup, lookupGet_lookupSet, hk', h1, ih h2]

theorem keysNodup_foldl_build (lines : List Line) :
    ∀ lk : Lookup, keysNodup lk = true → keysNodup (lines.foldl buildStep lk) = true := by
  induction lines with
  | nil => intro lk h; simpa using h
  | cons l rest ih =>
    intro lk h
    simp only [List.foldl_cons]
    apply ih
    cases l with
    | blank => exact h
    | malformed => exact h
    | record r =>
      simp only [buildStep]
      by_cases ht : (getOrNull r "instance_id").truthy <;>
        simp [ht, keysNodup_lookupSet _ _ _ h, h]

theorem lookupGet_foldl_build (lines : List Line) :
    ∀ (lk : Lookup) (k : JVal),
      lookupGet (lines.foldl buildStep lk) k = lines.foldl (specStep k) (lookupGet lk k) := by
  induction lines with
  | nil => intro lk k; rfl
  | cons l rest ih =>
    intro lk k
    simp only [List.foldl_cons]
    rw [ih]
    have harg : lookupGet (buildStep lk l) k = specStep k (lookupGet lk k) l := by
      cases l with
      | blank => rfl
      | malformed => rfl
      | record r =>
        simp only [buildStep, specStep]
        by_cases ht : (getOrNull r "instance_id").truthy
        · simp [ht, lookupGet_lookupSet]
        · simp [ht]
    rw [harg]

/-! ## Join-engine lemmas -/

theorem orderedEmits_nil (lk : Lookup) : orderedEmits lk [] = [] := rfl

theorem orderedEmits_blank (lk : Lookup) (rest : List Line) :
    orderedEmits lk (.blank :: rest) = orderedEmits lk rest := by
  simp [orderedEmits]

theorem orderedEmits_malformed (lk : Lookup) (rest : List Line) :
    orderedEmits lk (.malformed :: rest) = orderedEmits lk rest := by
  simp [orderedEmits]

theorem orderedEmits_record (lk : Lookup) (r : Rec) (rest : List Line) :
    orderedEmits lk (.record r :: rest) =
      (if (getOrNull r "instance_id").truthy
       then [(mergeRecord lk (getOrNull r "instance_id") r).1] else [])
        ++ orderedEmits lk rest := by
  by_cases ht : (getOrNull r "instance_id").truthy <;>
    simp [orderedEmits, List.filterMap_cons, ht]

theorem mergeLines_append (lk : Lookup) (xs ys : List Line) :
    ∀ st : MergeState,
      mergeLines lk st (xs ++ ys) =
        match mergeLines lk st xs with
        | .ok st' => mergeLines lk st' ys
        | .error st' => .error st' := by
  induction xs with
  | nil => intro st; rfl
  | cons l rest ih =>
    intro st
    simp only [List.cons_append, mergeLines]
    cases mergeLine lk st l with
    | ok st' => exact ih st'
    | error st' => rfl

theorem mergeLines_ok_out (lk : Lookup) (lines : List Line) :
    ∀ st st' : MergeState, mergeLines lk st lines = .ok st' →
      st'.out_full = st.out_full ++ orderedEmits lk lines ∧
      st'.out_loc
        = st.out_loc ++ (orderedEmits lk lines).map (fun r => popField r "findings") := by
  induction lines with
  | nil =>
    intro st st' h
    simp only [mergeLines] at h
    cases h
    simp [orderedEmits_nil]
  | cons l rest ih =>
    intro st st' h
    cases l with
    | blank =>
      have h' : mergeLines lk st rest = .ok st' := h
      simpa [orderedEmits_blank] using ih st st' h'
    | malformed =>
      exact absurd h (by simp [mergeLines, mergeLine])
    | record r =>
      cases ht : (getOrNull r "instance_id").truthy with
      | false =>
        simp only [mergeLines, mergeLine, ht, Bool.false_eq_true, if_false] at h
        simpa [orderedEmits_record, ht] using ih st st' h
      | true =>
        simp only [mergeLines, mergeLine, ht, if_true] at h
        have := ih _ st' h
        simpa [orderedEmits_record, ht] using this

theorem mergeLines_dual (lk : Lookup) (lines : List Line) :
    ∀ st : MergeState,
      st.out_loc = st.out_full.map (fun r => popField r "findings") →
      (finalState (mergeLines lk st lines)).out_loc
        = (finalState (mergeLines lk st lines)).out_full.map
            (fun r => popField r "findings") := by
  induction lines with
  | nil => intro st h; exact h
  | cons l rest ih =>
    intro st h
    cases l with
    | blank => exact ih st h
    | malformed => exact h
    | record r =>
      cases ht : (getOrNull r "instance_id").truthy with
      | false =>
        have hst : mergeLines lk st (Line.record r :: rest) = mergeLines lk st rest := by
          simp [mergeLines, mergeLine, ht]
        rw [hst]
        exact ih st h
      | true =>
        have hst : mergeLines lk st (Line.record r :: rest)
            = mergeLines lk
                { out_full := st.out_full ++ [(mergeRecord lk (getOrNull r "instance_id") r).1],
                  out_loc := st.out_loc
                    ++ [popField (mergeRecord lk (getOrNull r "instance_id") r).1 "findings"],
                  merged_count := st.merged_count + 1,
                  found_locs := st.found_locs
                    + (if (mergeRecord lk (getOrNull r "instance_id") r).2.1 then 1 else 0),
                  found_findings := st.found_findings
                    + (if (mergeRecord lk (getOrNull r "instance_id") r).2.2 then 1 else 0) }
                rest := by
          simp [mergeLines, mergeLine, ht]
        rw [hst]
        exact ih _ (by simp [h])

/-! ## Claim theorems for the join engine -/

/-- **C1**: for every primary record whose key matches a Lookup Entry, the
`locations` and `findings` fields are each overwritten independently, and
each only if the Lookup Entry's corresponding value is non-null; an entry
with a null `findings` leaves the primary record's `findings` (value or
absence) untouched. -/
theorem merge_overwrite_rules (lk : Lookup) (r : Rec) (e : Entry)
    (h : lookupGet lk (getOrNull r "instance_id") = some e) :
    getField (mergeRecord lk (getOrNull r "instance_id") r).1 "locations"
        = (if e.locations.isNull then getField r "locations" else some e.locations) ∧
    getField (mergeRecord lk (getOrNull r "instance_id") r).1 "findings"
        = (if e.findings.isNull then getField r "findings" else some e.findings) := by
  simp only [mergeRecord, h, applyExtra]
  cases hl : e.locations.isNull <;> cases hf : e.findings.isNull <;>
    simp [hl, hf, getField_setField_self,
          getField_setField_ne _ _ _ _ (by decide : ("locations" : String) ≠ "findings"),
          getField_setField_ne _ _ _ _ (by decide : ("findings" : String) ≠ "locations")]

theorem merge_overwrite_rules_witness :
    getField (mergeRecord [(JVal.str "a", ⟨JVal.null, JVal.str "F"⟩)]
        (getOrNull [("instance_id", JVal.str "a"), ("findings", JVal.str "old")]
          "instance_id")
        [("instance_id", JVal.str "a"), ("findings", JVal.str "old")]).1 "locations"
      = (if (JVal.null).isNull
         then getField [("instance_id", JVal.str "a"), ("findings", JVal.str "old")]
                "locations"
         else some JVal.null) ∧
    getField (mergeRecord [(JVal.str "a", ⟨JVal.null, JVal.str "F"⟩)]
        (getOrNull [("instance_id", JVal.str "a"), ("findings", JVal.str "old")]
          "instance_id")
        [("instance_id", JVal.str "a"), ("findings", JVal.str "old")]).1 "findings"
      = (if (JVal.str "F").isNull
         then getField [("instance_id", JVal.str "a"), ("findings", JVal.str "old")]
                "findings"
         else some (JVal.str "F")) :=
  merge_overwrite_rules _ _ ⟨JVal.null, JVal.str "F"⟩ (by decide)

/-- **C2**: the lookup mapping built from any secondary source has at most
one entry per distinct key, and the entry stored under each key is the
projection of the last record in source order with that key (overwrite,
not merge or error). -/
theorem lookup_builder_last_write_wins (lines : List Line) :
    keysNodup (build_lookup_streaming lines) = true ∧
    ∀ k : JVal, lookupGet (build_lookup_streaming lines) k = lastEntrySpec lines k := by
  refine ⟨keysNodup_foldl_build lines [] rfl, fun k => ?_⟩
  unfold build_lookup_streaming lastEntrySpec
  rw [lookupGet_foldl_build]
  rfl

/-- **C3**: for every primary source and lookup mapping, the two output
streams have the same number of lines, and line `i` of the locations-only
output is line `i` of the with-findings output with the `findings` field
removed. -/
theorem dual_projection_consistency (lk : Lookup) (lines : List Line) :
    (finalState (merge_with_lookup lk lines)).out_loc.length
        = (finalState (merge_with_lookup lk lines)).out_full.length ∧
    ∀ i : Nat,
      (finalState (merge_with_lookup lk lines)).out_loc[i]?
        = ((finalState (merge_with_lookup lk lines)).out_full[i]?).map
            (fun r => popField r "findings") := by
  have h := mergeLines_dual lk lines initState rfl
  unfold merge_with_lookup
  constructor
  · rw [h]; simp
  · intro i; rw [h]; simp

/-- **C4**: when the join pass completes, both output sinks contain the
emitted records in exactly the primary source's original line order. -/
theorem merge_order_preservation (lk : Lookup) (lines : List Line) (st : MergeState)
    (h : merge_with_lookup lk lines = .ok st) :
    st.out_full = orderedEmits lk lines ∧
    st.out_loc = (orderedEmits lk lines).map (fun r => popField r "findings") := by
  have := mergeLines_ok_out lk lines initState st h
  simpa [initState] using this

theorem merge_order_preservation_witness :
    ({ out_full := [[("instance_id", JVal.str "a"), ("v", JVal.num 1)],
                    [("instance_id", JVal.str "b")]],
       out_loc := [[("instance_id", JVal.str "a"), ("v", JVal.num 1)],
                   [("instance_id", JVal.str "b")]],
       merged_count := 2, found_locs := 0, found_findings := 0 } : MergeState).out_full
      = orderedEmits []
          [Line.record [("instance_id", JVal.str "a"), ("v", JVal.num 1)],
           Line.record [("instance_id", JVal.str "b")]] ∧
    ({ out_full := [[("instance_id", JVal.str "a"), ("v", JVal.num 1)],
                    [("instance_id", JVal.str "b")]],
       out_loc := [[("instance_id", JVal.str "a"), ("v", JVal.num 1)],
                   [("instance_id", JVal.str "b")]],
       merged_count := 2, found_locs := 0, found_findings := 0 } : MergeState).out_loc
      = (orderedEmits []
          [Line.record [("instance_id", JVal.str "a"), ("v", JVal.num 1)],
           Line.record [("instance_id", JVal.str "b")]]).map
          (fun r => popField r "findings") :=
  merge_order_preservation [] _ _ rfl

/-- **C5**: a non-blank primary line that fails to parse is fatal — the
pass ends in an error whose state is exactly the state after the records
processed before the malformed line, so both sinks hold exactly those
records' lines and nothing for the malformed one. -/
theorem primary_parse_error_fatal (lk : Lookup) (pre post : List Line) (st : MergeState)
    (h : merge_with_lookup lk pre = .ok st) :
    merge_with_lookup lk (pre ++ Line.malformed :: post) = .error st := by
  unfold merge_with_lookup at h ⊢
  rw [mergeLines_append, h]
  rfl

theorem primary_parse_error_fatal_witness :
    merge_with_lookup []
        ([Line.record [("instance_id", JVal.str "a")]] ++ Line.malformed :: [Line.blank])
      = .error { out_full := [[("instance_id", JVal.str "a")]],
                 out_loc := [[("instance_id", JVal.str "a")]],
                 merged_count := 1, found_locs := 0, found_findings := 0 } :=
  primary_parse_error_fatal [] [Line.record [("instance_id", JVal.str "a")]]
    [Line.blank] _ rfl

/-- **C6**: a primary record lacking `instance_id` (or carrying a falsy
value for it) is silently dropped: no line is written to either sink, the
counters (including the processed-record counter) are unchanged, and no
error is raised. -/
theorem missing_key_silent_drop (lk : Lookup) (st : MergeState) (r : Rec)
    (h : (getOrNull r "instance_id").truthy = false) :
    mergeLine lk st (.record r) = .ok st := by
  simp [mergeLine, h]

theorem missing_key_silent_drop_witness :
    mergeLine [] initState (.record [("x", JVal.num 1)]) = .ok initState :=
  missing_key_silent_drop [] initState [("x", JVal.num 1)] (by decide)

/-! ## Claim theorems for the extraction transform -/

/-- **C7**: on a statement carrying the marker section
`"--- EDIT LOCATIONS ---\n[bullet] a.py: L1-L5\n[bullet] b.py"`, extraction
yields exactly the two expected locations and the cleaned statement, and
re-running extraction on the cleaned statement yields no locations. -/
theorem extraction_round_trip :
    extract_locations_from_problem_statement
        "Fix the bug.\n\n--- EDIT LOCATIONS ---\n• a.py: L1-L5\n• b.py"
      = ("Fix the bug.",
         [{ file_path := "a.py", start_line := some 1, end_line := some 5 },
          { file_path := "b.py", start_line := none, end_line := none }]) ∧
    extract_locations_from_problem_statement "Fix the bug."
      = ("Fix the bug.", []) := by
  constructor <;> decide

theorem rstripChars_prefix (l : List Char) : rstripChars l <+: l := by
  unfold rstripChars
  have h2 : (l.reverse.dropWhile isPySpace).reverse <+: l.reverse.reverse :=
    List.reverse_prefix.mpr (List.dropWhile_suffix isPySpace)
  simpa using h2

/-- **C8** counterexample: on
`"A\n--- EDIT LOCATIONS ---\n[bullet] a.py\n\nB"` the text with only the
marker section (the regex match, `"--- EDIT LOCATIONS ---\n[bullet] a.py\n\n"`)
stripped would be `"A\nB"`, preserving the trailing `"B"`; the code's
cleaned statement is `"A"` — the text after the section's terminating
blank line is discarded, not preserved. -/
theorem clean_text_tail_dropped_counterexample :
    (extract_locations_from_problem_statement
        "A\n--- EDIT LOCATIONS ---\n• a.py\n\nB").1 = "A" ∧
    ("A" : String) ≠ "A\nB" := by
  constructor <;> decide

/-- **C8** (amended): for every problem statement containing a
marker-introduced locations section, the cleaned text is the text
strictly before the marker with trailing whitespace stripped — a prefix
of the pre-marker text.  Everything from the marker on, including any
text after the section's terminating blank line, is discarded. -/
theorem clean_text_is_stripped_head (s : String) (i : Nat) (body : List Char)
    (h : findMarker s.data 0 = some (i, body)) :
    (extract_locations_from_problem_statement s).1
        = String.mk (rstripChars (s.data.take i)) ∧
    (extract_locations_from_problem_statement s).1.data <+: s.data.take i := by
  unfold extract_locations_from_problem_statement
  rw [h]
  exact ⟨rfl, rstripChars_prefix _⟩

theorem clean_text_is_stripped_head_witness :
    (extract_locations_from_problem_statement
        "A\n--- EDIT LOCATIONS ---\n• a.py\n\nB").1
        = String.mk (rstripChars
            (("A\n--- EDIT LOCATIONS ---\n• a.py\n\nB" : String).data.take 2)) ∧
    (extract_locations_from_problem_statement
        "A\n--- EDIT LOCATIONS ---\n• a.py\n\nB").1.data
        <+: ("A\n--- EDIT LOCATIONS ---\n• a.py\n\nB" : String).data.take 2 :=
  clean_text_is_stripped_head _ 2 ['•', ' ', 'a', '.', 'p', 'y'] (by decide)

/-! ## Claim theorems for the companion transform -/

theorem process_jsonl_file_eq_spec (reasoning : String) :
    ∀ lines : List Line,
      process_jsonl_file reasoning lines
        = processedSeqSpec reasoning (lines.filterMap lineRecord) := by
  intro lines
  induction lines with
  | nil => rfl
  | cons l rest ih =>
    cases l with
    | blank => simpa [process_jsonl_file, List.filterMap_cons, lineRecord] using ih
    | malformed => simpa [process_jsonl_file, List.filterMap_cons, lineRecord] using ih
    | record r =>
      simp only [process_jsonl_file, List.filterMap_cons, lineRecord, processedSeqSpec]
      rw [ih]

/-- **C9**: the in-place companion transform keeps exactly the lines that
parse as JSON: its output is the in-order rewrite of the parsed records
(`processedSeqSpec` over `filterMap lineRecord`), and a malformed line is
permanently absent — the file rewrites the same as if the line were not
there at all. -/
theorem companion_keeps_parsed_lines (reasoning : String) (lines : List Line) :
    process_jsonl_file reasoning lines
        = processedSeqSpec reasoning (lines.filterMap lineRecord) ∧
    ∀ pre post : List Line,
      process_jsonl_file reasoning (pre ++ Line.malformed :: post)
        = process_jsonl_file reasoning (pre ++ post) := by
  refine ⟨process_jsonl_file_eq_spec reasoning lines, fun pre post => ?_⟩
  rw [process_jsonl_file_eq_spec, process_jsonl_file_eq_spec]
  simp [List.filterMap_append, List.filterMap_cons, lineRecord]

/-- **C10**: after the companion transform rewrites a sample, the sample
carries an `edit_locations` field exactly when extraction found at least
one location in its `problem_statement`: with none found any pre-existing
`edit_locations` is deleted, and with locations found the field holds the
`{reasoning, locations}` structure built from the extraction result. -/
theorem edit_locations_iff_found (reasoning ps : String) (sample out : Rec)
    (hps : psField sample = some ps)
    (h : processSample reasoning sample = some out) :
    ((extract_locations_from_problem_statement ps).2 = [] →
        getField out "edit_locations" = none) ∧
    ((extract_locations_from_problem_statement ps).2 ≠ [] →
        getField out "edit_locations"
          = some (editLocationsVal reasoning
              (extract_locations_from_problem_statement ps).2)) := by
  simp only [processSample, hps, Option.some.injEq] at h
  cases hemp : (extract_locations_from_problem_statement ps).2 with
  | nil =>
    rw [hemp] at h
    simp only [List.isEmpty_nil, Bool.not_true, Bool.false_eq_true, if_false] at h
    refine ⟨fun _ => ?_, fun hne => absurd rfl hne⟩
    rcases hg : (getField (setField sample "problem_statement"
        (.str (extract_locations_from_problem_statement ps).1))
        "edit_locations").isSome with _ | _
    · rw [hg] at h
      simp only [Bool.false_eq_true, if_false] at h
      rw [← h]
      exact Option.not_isSome_iff_eq_none.mp (by simp [hg])
    · rw [hg] at h
      simp only [if_true] at h
      rw [← h]
      exact getField_popField_self _ _
  | cons a as =>
    rw [hemp] at h
    simp only [List.isEmpty_cons, Bool.not_false, if_true] at h
    refine ⟨fun heq => absurd heq (List.cons_ne_nil a as), fun _ => ?_⟩
    rw [← h]
    exact getField_setField_self _ _ _

theorem edit_locations_iff_found_witness :
    ((extract_locations_from_problem_statement "plain").2 = [] →
        getField [("problem_statement", JVal.str "plain")] "edit_locations" = none) ∧
    ((extract_locations_from_problem_statement "plain").2 ≠ [] →
        getField [("problem_statement", JVal.str "plain")] "edit_locations"
          = some (editLocationsVal "why"
              (extract_locations_from_problem_statement "plain").2)) :=
  edit_locations_iff_found "why" "plain"
    [("problem_statement", JVal.str "plain"), ("edit_locations", JVal.null)]
    [("problem_statement", JVal.str "plain")] (by decide) (by decide)

